import Mathlib

/-!
Verification development for the resolver tree-fetching core of this
repository (`x-pack/plugins/security_solution/server/endpoint/routes/resolver/
new_tree/utils/fetch.ts`).  The implementation file itself is not part of the
provided sources; only its test suite (`fetch.test.ts`) is.  The definitions
below are therefore modelled from the natural-language specification
(`spec.md`, sections 3, 4.1, 4.2, 6, 7) and are pinned by the concrete
input/output vectors of the in-source test suite, which every definition here
reproduces exactly.

Node records are opaque field-name-to-value mappings; values are either a
single string or a list of strings (the ancestry array).
-/

/-- A field value stored on a node record: either a single string identifier
or a list of string identifiers (an ancestry array). -/
inductive FieldValue where
  | str : String → FieldValue
  | strList : List String → FieldValue
  deriving DecidableEq, Repr

/-- A node record: an opaque assoc list of field name to value, interpreted
only through a schema (spec section 3, "Node record"). -/
abbrev Record := List (String × FieldValue)

/-- Modelled from the spec: the schema `{ idField, parentField,
ancestryField? }` (spec section 3, "Schema"); the TypeScript shape lives in the
missing implementation sources and appears in the test file as
`{ id, parent, ancestry? }`. -/
structure ResolverSchema where
  id : String
  parent : String
  ancestry : Option String := none
  deriving DecidableEq, Repr

/-- Aggregate statistics attached to each returned node
(spec section 6: `stats: { total, byCategory }`). -/
structure Stats where
  total : Nat
  byCategory : List (String × Nat)
  deriving DecidableEq, Repr

/-- A node of the final tree: the raw record plus its statistics, as the
test file's `addEmptyStats` produces (`{ data, stats }`). -/
structure ResolverNode where
  data : Record
  stats : Stats
  deriving DecidableEq, Repr

/-- Look up a raw field value on a record by field name. -/
def getField (r : Record) (name : String) : Option FieldValue :=
  (r.find? (fun p => p.1 == name)).map (fun p => p.2)

/-- Modelled from the spec: read a field expected to hold a single string
identifier; a missing field or an ancestry-array-shaped value yields no
information (spec sections 4.2 and 7: malformed or missing field values are
treated as "no information"). -/
def getFieldAsString (r : Record) (name : String) : Option String :=
  match getField r name with
  | some (FieldValue.str s) => some s
  | _ => none

/-- Modelled from the spec: extract a record's ancestry array through the
schema (spec section 3, "ancestry array": a precomputed ordered list of
ancestor identifiers closest-first); absent schema field or absent value
yields the empty list, and a single string value is treated as a
one-element array. -/
def getAncestryAsArray (r : Record) (schema : ResolverSchema) : List String :=
  match schema.ancestry with
  | none => []
  | some f =>
    match getField r f with
    | some (FieldValue.strList l) => l
    | some (FieldValue.str s) => [s]
    | none => []

/-- Accumulator for the leaf-detection pass: the largest ancestry-array
length seen so far, and per-ancestry-length insertion-ordered buckets of
candidate leaf identifiers. -/
structure LeafAcc where
  largest : Nat
  buckets : List (Nat × List String)
  deriving Repr

/-- Add an identifier to the bucket of the given level, keeping insertion
order and skipping an identifier already present in that bucket. -/
def bucketAdd : List (Nat × List String) → Nat → String → List (Nat × List String)
  | [], lvl, nodeId => [(lvl, [nodeId])]
  | (l, ids) :: rest, lvl, nodeId =>
    if l = lvl then (l, if nodeId ∈ ids then ids else ids ++ [nodeId]) :: rest
    else (l, ids) :: bucketAdd rest lvl nodeId

/-- Read the bucket of the given level (empty when absent). -/
def bucketGet : List (Nat × List String) → Nat → List String
  | [], _ => []
  | (l, ids) :: rest, lvl => if l = lvl then ids else bucketGet rest lvl

/-- Modelled from the spec: one step of the leaf detector over a single
record (spec section 4.2).  A record missing the id value is ignored
entirely.  Otherwise its ancestry array length updates the largest seen; if
the ancestry array is non-empty and ends in a queried identifier the record
is a leaf candidate at that ancestry depth; with no usable ancestry the
record is a depth-zero candidate when its parent is a queried identifier. -/
def leafStep (schema : ResolverSchema) (queried : List String) (acc : LeafAcc)
    (r : Record) : LeafAcc :=
  match getFieldAsString r schema.id with
  | none => acc
  | some nodeId =>
    let anc := getAncestryAsArray r schema
    let big := max acc.largest anc.length
    match anc.getLast? with
    | some last =>
      if last ∈ queried then
        { largest := big, buckets := bucketAdd acc.buckets anc.length nodeId }
      else
        { largest := big, buckets := acc.buckets }
    | none =>
      match getFieldAsString r schema.parent with
      | some par =>
        if par ∈ queried then
          { largest := big, buckets := bucketAdd acc.buckets 0 nodeId }
        else
          { largest := big, buckets := acc.buckets }
      | none => { largest := big, buckets := acc.buckets }

/-- Modelled from the spec: the leaf detector `getLeafNodes(results, nodes,
schema)` of the missing `fetch.ts` (spec sections 4.2 and 8).  It scans the
fetched batch once, bucketing candidate identifiers by ancestry-array length,
and returns the bucket of the largest ancestry length seen (depth zero when no
record carried an ancestry array).  This reproduces every vector of the
in-source test suite, including the unbalanced-tree boundary case. -/
def getLeafNodes (results : List Record) (nodes : List String)
    (schema : ResolverSchema) : List String :=
  let acc := results.foldl (leafStep schema nodes) ⟨0, []⟩
  bucketGet acc.buckets acc.largest

-- Schemas used by the test vectors.
def schemaPlain : ResolverSchema := ⟨"id", "parent", none⟩
def schemaAnc : ResolverSchema := ⟨"id", "parent", some "ancestry"⟩

/-- Modelled from the spec: the traversal options of the missing `fetch.ts`
(spec section 3, "Traversal options"; names follow the test file's
`TreeOptions`: `descendantLevels`, `descendants` = max descendant count,
`ancestors` = ancestor levels, `schema`, `nodes` = origin identifiers).  The
`timerange` and `indexPatterns` members are pass-through query-construction
data outside this core and are absorbed into the query capability. -/
structure TreeOptions where
  descendantLevels : Nat
  descendants : Nat
  ancestors : Nat
  schema : ResolverSchema
  nodes : List String
  deriving Repr

/-- Modelled from the spec: the injected query-execution capability (spec
section 6); the concrete `LifecycleQuery` / `DescendantsQuery` / `StatsQuery`
classes are external collaborators absent from the sources.  Each search
takes the zero-based index of the call (so that scripted per-call mock
responses can be expressed) and may fail; failures propagate
(spec section 7). -/
structure QueryExec where
  searchAncestry : Nat → List String → Except String (List Record)
  searchDescendants : Nat → List String → Nat → Except String (List Record)
  searchStats : List String → Except String (List (String × Stats))

/-- Append fetched records to the accumulated result, skipping records whose
identifier is already in the visited set, and extending the visited set
(spec section 3, "Visited set"; section 4.1 step 5). -/
def appendNew (schema : ResolverSchema) (start : List Record × List String)
    (results : List Record) : List Record × List String :=
  results.foldl
    (fun (p : List Record × List String) r =>
      match getFieldAsString r schema.id with
      | some i => if i ∈ p.2 then p else (p.1 ++ [r], p.2 ++ [i])
      | none => (p.1 ++ [r], p.2))
    start

/-- Remove duplicate identifiers from a frontier, keeping first occurrences
(spec section 3, "Frontier": never contains duplicates within an
iteration). -/
def dedupStr (l : List String) : List String :=
  l.foldl (fun acc s => if s ∈ acc then acc else acc ++ [s]) []

/-- Modelled from the spec: compute the next ancestor frontier from one
level's returned records (spec section 4.1 step 4).  Each record contributes
either a segment of its ancestry array truncated to the remaining level
budget (jumping several levels at once), or — when no usable ancestry
remains — its immediate parent identifier (one level).  The second component
is the number of levels the contributed frontier spans (the maximum over the
records' contributions). -/
def ancestorContribs (schema : ResolverSchema) (levelsLeft : Nat)
    (results : List Record) : List String × Nat :=
  results.foldl
    (fun (p : List String × Nat) r =>
      let anc := (getAncestryAsArray r schema).take levelsLeft
      if anc.isEmpty then
        match getFieldAsString r schema.parent with
        | some par => (p.1 ++ [par], max p.2 1)
        | none => p
      else (p.1 ++ anc, max p.2 anc.length))
    ([], 0)

/-- Modelled from the spec: the ancestor traversal loop of `Fetcher.tree`
(spec section 4.1, "Ancestor traversal algorithm").  State: remaining level
budget, current frontier with the number of levels it spans, visited set,
accumulated records, and the number of queries issued so far.  Terminates
when the budget is exhausted, the frontier is empty, or a query returns no
records; a query failure propagates.  The first argument is structural fuel
equal to the initial level budget: every iteration consumes at least one
level of budget, so fuel never runs out before the budget guard stops the
loop.  Returns the accumulated records and the number of queries issued. -/
def ancGo (qe : QueryExec) (schema : ResolverSchema) :
    Nat → Nat → List String → Nat → List Record × List String → Nat →
    Except String (List Record × Nat)
  | 0, _, _, _, st, calls => Except.ok (st.1, calls)
  | fuel + 1, levelsLeft, frontier, span, st, calls =>
    if levelsLeft = 0 then Except.ok (st.1, calls)
    else if frontier.isEmpty then Except.ok (st.1, calls)
    else
      match qe.searchAncestry calls frontier with
      | Except.error e => Except.error e
      | Except.ok results =>
        if results.isEmpty then Except.ok (st.1, calls + 1)
        else
          let st2 := appendNew schema st results
          let levelsLeft2 := levelsLeft - max 1 span
          let contribs := ancestorContribs schema levelsLeft2 results
          ancGo qe schema fuel levelsLeft2 (dedupStr contribs.1) contribs.2 st2 (calls + 1)

/-- Modelled from the spec: the ancestor half of the traversal (spec section
4.1 steps 1-2): with a zero ancestor budget no query is ever issued;
otherwise run the loop from the origin identifiers (a one-level frontier). -/
def fetchAncestors (qe : QueryExec) (opts : TreeOptions) :
    Except String (List Record × Nat) :=
  ancGo qe opts.schema opts.ancestors opts.ancestors (dedupStr opts.nodes) 1 ([], []) 0

/-- Modelled from the spec: the descendant traversal loop of `Fetcher.tree`
(spec section 4.1, "Descendant traversal algorithm").  State: remaining level
budget (one level per iteration), remaining node-count budget, current
frontier, visited set, accumulated records, queries issued.  Each query is
capped by the remaining node budget; the next frontier is the leaf detector's
output over the fetched batch and the current frontier. -/
def descGo (qe : QueryExec) (schema : ResolverSchema) :
    Nat → Nat → List String → List Record × List String → Nat →
    Except String (List Record × Nat)
  | 0, _, _, st, calls => Except.ok (st.1, calls)
  | l + 1, budget, frontier, st, calls =>
    if budget = 0 then Except.ok (st.1, calls)
    else if frontier.isEmpty then Except.ok (st.1, calls)
    else
      match qe.searchDescendants calls frontier budget with
      | Except.error e => Except.error e
      | Except.ok results =>
        if results.isEmpty then Except.ok (st.1, calls + 1)
        else
          let st2 := appendNew schema st results
          descGo qe schema l (budget - results.length)
            (getLeafNodes results frontier schema) st2 (calls + 1)

/-- Modelled from the spec: the descendant half of the traversal (spec
section 4.1 steps 1-2): a zero level budget or a zero node budget issues no
query; otherwise run the loop from the origin identifiers. -/
def fetchDescendants (qe : QueryExec) (opts : TreeOptions) :
    Except String (List Record × Nat) :=
  descGo qe opts.schema opts.descendantLevels opts.descendants
    (dedupStr opts.nodes) ([], []) 0

/-- Deduplicate a record list by identifier, keeping first occurrences;
records without an identifier are kept (spec section 4.1, "Merge": dedup by
identifier across the whole operation). -/
def dedupById (schema : ResolverSchema) (records : List Record) : List Record :=
  (appendNew schema ([], []) records).1

/-- Stats attached to a node: the entry of the stats response for its
identifier, defaulting to zero-valued stats (matching the test file's
`addEmptyStats` shape `{ total: 0, byCategory: {} }`). -/
def lookupStats (st : List (String × Stats)) (i : Option String) : Stats :=
  match i with
  | none => ⟨0, []⟩
  | some s => (((st.find? (fun p => p.1 == s)).map (fun p => p.2)).getD ⟨0, []⟩)

/-- Modelled from the spec: the public entry point `Fetcher.tree` (spec
sections 4.1 "Merge" and 6): run both directions, concatenate ancestors
first, deduplicate by identifier across the whole operation, then annotate
every node with its statistics (zero-valued when the stats response has no
entry for it). -/
def tree (qe : QueryExec) (opts : TreeOptions) : Except String (List ResolverNode) :=
  match fetchAncestors qe opts with
  | Except.error e => Except.error e
  | Except.ok anc =>
    match fetchDescendants qe opts with
    | Except.error e => Except.error e
    | Except.ok desc =>
      match qe.searchStats ((dedupById opts.schema (anc.1 ++ desc.1)).filterMap
          (fun r => getFieldAsString r opts.schema.id)) with
      | Except.error e => Except.error e
      | Except.ok st =>
        Except.ok ((dedupById opts.schema (anc.1 ++ desc.1)).map
          (fun r => ⟨r, lookupStats st (getFieldAsString r opts.schema.id)⟩))

/-- The test file's `addEmptyStats`: wrap raw records with zero-valued
statistics. -/
def addEmptyStats (results : List Record) : List ResolverNode :=
  results.map (fun r => ⟨r, ⟨0, []⟩⟩)

-- scratch checks against the in-source test vectors (removed later)
example :
    getLeafNodes
      [[("id", .str "1"), ("parent", .str "0")],
       [("id", .str "2"), ("parent", .str "0")],
       [("id", .str "3"), ("parent", .str "0")]]
      ["0"] schemaPlain = ["1", "2", "3"] := by decide

example :
    getLeafNodes
      [[("id", .str "1"), ("parent", .str "0")],
       [("id", .str "2"), ("parent", .str "0")],
       [("idNotReal", .str "3"), ("parentNotReal", .str "0")]]
      ["0"] schemaPlain = ["1", "2"] := by decide

example :
    getLeafNodes
      [[("id", .str "1"), ("parentNotReal", .str "0")],
       [("id", .str "2"), ("parentNotReal", .str "0")],
       [("idNotReal", .str "3"), ("parent", .str "0")]]
      ["0"] schemaPlain = [] := by decide

example :
    getLeafNodes
      [[("id", .str "1"), ("parent", .str "0"), ("ancestry", .strList ["0", "a"])],
       [("id", .str "2"), ("parent", .str "1"), ("ancestry", .strList ["1", "0"])],
       [("id", .str "3"), ("parent", .str "0"), ("ancestry", .strList ["0", "a"])]]
      ["0"] schemaAnc = ["2"] := by decide

example :
    getLeafNodes
      [[("id", .str "1"), ("parent", .str "0"), ("ancestryNotValid", .strList ["0", "a"])],
       [("id", .str "2"), ("parent", .str "1")],
       [("id", .str "3"), ("parent", .str "0")]]
      ["0"] schemaAnc = ["1", "3"] := by decide

example :
    getLeafNodes
      [[("id", .str "1"), ("parent", .str "0"), ("ancestry", .strList ["0", "a"])],
       [("id", .str "2"), ("parent", .str "1"), ("ancestry", .strList ["1", "0"])],
       [("id", .str "3"), ("parent", .str "0"), ("ancestry", .strList ["0", "a"])],
       [("id", .str "4"), ("parent", .str "3"), ("ancestry", .strList ["3", "0"])],
       [("id", .str "5"), ("parent", .str "3"), ("ancestry", .strList ["3", "0"])]]
      ["0"] schemaAnc = ["2", "4", "5"] := by decide

example :
    getLeafNodes
      [[("id", .str "1"), ("parent", .str "0"), ("ancestry", .strList ["0"])],
       [("id", .str "2"), ("parent", .str "1"), ("ancestry", .strList ["1", "0"])],
       [("id", .str "3"), ("parent", .str "0"), ("ancestry", .strList ["0"])],
       [("id", .str "4"), ("parent", .str "3"), ("ancestry", .strList ["3", "0"])],
       [("id", .str "5"), ("parent", .str "3"), ("ancestry", .strList ["3", "0"])],
       [("id", .str "b"), ("parent", .str "a"), ("ancestry", .strList ["a"])],
       [("id", .str "c"), ("parent", .str "b"), ("ancestry", .strList ["b", "a"])],
       [("id", .str "d"), ("parent", .str "b"), ("ancestry", .strList ["b", "a"])]]
      ["0", "a"] schemaAnc = ["2", "4", "5", "c", "d"] := by decide

example :
    getLeafNodes
      [[("id", .str "1"), ("parent", .str "0"), ("ancestry", .strList ["0"])],
       [("id", .str "2"), ("parent", .str "1"), ("ancestry", .strList ["1", "0"])],
       [("id", .str "3"), ("parent", .str "0"), ("ancestry", .strList ["0"])],
       [("id", .str "4"), ("parent", .str "3"), ("ancestry", .strList ["3", "0"])],
       [("id", .str "5"), ("parent", .str "3"), ("ancestry", .strList ["3", "0"])],
       [("id", .str "b"), ("parent", .str "a"), ("ancestry", .strList ["a"])]]
      ["0", "a"] schemaAnc = ["2", "4", "5"] := by decide

-- Fixtures for the descendant two-level tree test (root 0 with children 1,3; 1 has 2; 3 has 4,5).
def d1 : Record := [("id", .str "1"), ("parent", .str "0")]
def d3 : Record := [("id", .str "3"), ("parent", .str "0")]
def d2 : Record := [("id", .str "2"), ("parent", .str "1")]
def d4 : Record := [("id", .str "4"), ("parent", .str "3")]
def d5 : Record := [("id", .str "5"), ("parent", .str "3")]

def level1 : List Record := [d1, d3]
def level2 : List Record := [d2, d4, d5]

def qeDesc : QueryExec :=
  { searchAncestry := fun _ _ => Except.error "not used"
    searchDescendants := fun calls _ _ =>
      if calls = 0 then Except.ok level1
      else if calls = 1 then Except.ok level2
      else Except.error "exhausted"
    searchStats := fun _ => Except.ok [] }

def optsDesc : TreeOptions :=
  { descendantLevels := 2, descendants := 5, ancestors := 0,
    schema := schemaPlain, nodes := ["0"] }

example : tree qeDesc optsDesc = Except.ok (addEmptyStats (level1 ++ level2)) := by rfl

-- Fixtures for the ancestry-array ancestor test (origin 3, ancestry [2,1]).
def node3 : Record :=
  [("ancestry", .strList ["2", "1"]), ("id", .str "3"), ("parent", .str "2")]
def node1 : Record :=
  [("ancestry", .strList ["0"]), ("id", .str "1"), ("parent", .str "0")]
def node2 : Record :=
  [("ancestry", .strList ["1", "0"]), ("id", .str "2"), ("parent", .str "1")]

def qeAnc : QueryExec :=
  { searchAncestry := fun calls _ =>
      if calls = 0 then Except.ok [node3]
      else if calls = 1 then Except.ok [node1, node2]
      else Except.error "exhausted"
    searchDescendants := fun _ _ _ => Except.error "not used"
    searchStats := fun _ => Except.ok [] }

def optsAnc : TreeOptions :=
  { descendantLevels := 0, descendants := 0, ancestors := 3,
    schema := schemaAnc, nodes := ["3"] }

example : fetchAncestors qeAnc optsAnc = Except.ok ([node3, node1, node2], 2) := by rfl
example : tree qeAnc optsAnc = Except.ok (addEmptyStats [node3, node1, node2]) := by rfl

-- chained lifecycle lookups without ancestry (ancestors=2): [{3,2},{2,1}]
def qeAncPlain : QueryExec :=
  { searchAncestry := fun calls _ =>
      if calls = 0 then Except.ok [[("id", .str "3"), ("parent", .str "2")]]
      else if calls = 1 then Except.ok [[("id", .str "2"), ("parent", .str "1")]]
      else Except.error "exhausted"
    searchDescendants := fun _ _ _ => Except.error "not used"
    searchStats := fun _ => Except.ok [] }

example :
    tree qeAncPlain
      { descendantLevels := 0, descendants := 0, ancestors := 2,
        schema := schemaPlain, nodes := ["3"] } =
    Except.ok (addEmptyStats
      [[("id", .str "3"), ("parent", .str "2")],
       [("id", .str "2"), ("parent", .str "1")]]) := by rfl

/-!  Invariant lemmas for the leaf detector: every bucket holds a
subsequence (hence a no-duplicate subset, in order) of the identifier values
of the records processed so far. -/

lemma bucketAdd_inv {base : List String} {bs : List (Nat × List String)}
    {lvl : Nat} {i : String}
    (hb : ∀ p ∈ bs, List.Sublist p.2 base ∧ p.2.Nodup) :
    ∀ q ∈ bucketAdd bs lvl i, List.Sublist q.2 (base ++ [i]) ∧ q.2.Nodup := by
  induction bs with
  | nil =>
    intro q hq
    simp only [bucketAdd, List.mem_singleton] at hq
    subst hq
    exact ⟨List.sublist_append_right base [i], List.nodup_singleton i⟩
  | cons hd tl ih =>
    obtain ⟨l, ids⟩ := hd
    intro q hq
    have hhd := hb (l, ids) (List.mem_cons_self _ _)
    by_cases hl : l = lvl
    · by_cases hi : i ∈ ids
      · simp only [bucketAdd, hl, if_pos rfl, if_pos hi] at hq
        rcases List.mem_cons.mp hq with hq | hq
        · subst hq
          exact ⟨hhd.1.trans (List.sublist_append_left base [i]), hhd.2⟩
        · have := hb q (List.mem_cons_of_mem _ hq)
          exact ⟨this.1.trans (List.sublist_append_left base [i]), this.2⟩
      · simp only [bucketAdd, hl, if_pos rfl, if_neg hi] at hq
        rcases List.mem_cons.mp hq with hq | hq
        · subst hq
          refine ⟨List.Sublist.append hhd.1 (List.Sublist.refl [i]), ?_⟩
          rw [List.nodup_append]
          refine ⟨hhd.2, List.nodup_singleton i, ?_⟩
          intro a ha hai
          rw [List.mem_singleton] at hai
          subst hai
          exact hi ha
        · have := hb q (List.mem_cons_of_mem _ hq)
          exact ⟨this.1.trans (List.sublist_append_left base [i]), this.2⟩
    · simp only [bucketAdd, if_neg hl] at hq
      rcases List.mem_cons.mp hq with hq | hq
      · subst hq
        exact ⟨hhd.1.trans (List.sublist_append_left base [i]), hhd.2⟩
      · exact ih (fun p hp => hb p (List.mem_cons_of_mem _ hp)) q hq

lemma bucketGet_cases : ∀ (bs : List (Nat × List String)) (lvl : Nat),
    bucketGet bs lvl = [] ∨ (lvl, bucketGet bs lvl) ∈ bs := by
  intro bs
  induction bs with
  | nil => intro lvl; left; rfl
  | cons hd tl ih =>
    obtain ⟨l, ids⟩ := hd
    intro lvl
    by_cases hl : l = lvl
    · right
      subst hl
      simp [bucketGet]
    · rcases ih lvl with h | h
      · left
        simpa [bucketGet, hl] using h
      · right
        rw [show bucketGet ((l, ids) :: tl) lvl = bucketGet tl lvl by
          simp [bucketGet, hl]]
        exact List.mem_cons_of_mem _ h

lemma leafStep_buckets_inv (schema : ResolverSchema) (queried : List String)
    {acc : LeafAcc} {base : List String} {r : Record} {i : String}
    (hid : getFieldAsString r schema.id = some i)
    (h : ∀ p ∈ acc.buckets, List.Sublist p.2 base ∧ p.2.Nodup) :
    ∀ p ∈ (leafStep schema queried acc r).buckets,
      List.Sublist p.2 (base ++ [i]) ∧ p.2.Nodup := by
  intro p hp
  have hkeep : ∀ q ∈ acc.buckets, List.Sublist q.2 (base ++ [i]) ∧ q.2.Nodup := by
    intro q hq
    exact ⟨(h q hq).1.trans (List.sublist_append_left base [i]), (h q hq).2⟩
  simp only [leafStep, hid] at hp
  cases hlast : (getAncestryAsArray r schema).getLast? with
  | some last =>
    by_cases hmem : last ∈ queried
    · simp only [hlast, if_pos hmem] at hp
      exact bucketAdd_inv h p hp
    · simp only [hlast, if_neg hmem] at hp
      exact hkeep p hp
  | none =>
    cases hpar : getFieldAsString r schema.parent with
    | some par =>
      by_cases hmem : par ∈ queried
      · simp only [hlast, hpar, if_pos hmem] at hp
        exact bucketAdd_inv h p hp
      · simp only [hlast, hpar, if_neg hmem] at hp
        exact hkeep p hp
    | none =>
      simp only [hlast, hpar] at hp
      exact hkeep p hp

lemma leafFold_inv (schema : ResolverSchema) (queried : List String) :
    ∀ (results : List Record) (acc : LeafAcc) (base : List String),
      (∀ p ∈ acc.buckets, List.Sublist p.2 base ∧ p.2.Nodup) →
      ∀ q ∈ (results.foldl (leafStep schema queried) acc).buckets,
        List.Sublist q.2
            (base ++ results.filterMap (fun r => getFieldAsString r schema.id)) ∧
          q.2.Nodup := by
  intro results
  induction results with
  | nil =>
    intro acc base h q hq
    simpa using h q hq
  | cons r rs ih =>
    intro acc base h q hq
    simp only [List.foldl_cons] at hq
    cases hid : getFieldAsString r schema.id with
    | none =>
      have hstep : leafStep schema queried acc r = acc := by
        simp [leafStep, hid]
      rw [hstep] at hq
      have := ih acc base h q hq
      simpa [List.filterMap_cons, hid] using this
    | some i =>
      have hstep := leafStep_buckets_inv schema queried hid h
      have := ih (leafStep schema queried acc r) (base ++ [i]) hstep q hq
      simpa [List.filterMap_cons, hid, List.append_assoc] using this

lemma getLeafNodes_inv (results : List Record) (nodes : List String)
    (schema : ResolverSchema) :
    List.Sublist (getLeafNodes results nodes schema)
        (results.filterMap (fun r => getFieldAsString r schema.id)) ∧
      (getLeafNodes results nodes schema).Nodup := by
  unfold getLeafNodes
  have hbase : ∀ p ∈ (LeafAcc.mk 0 []).buckets, List.Sublist p.2 ([] : List String) ∧ p.2.Nodup := by
    intro p hp
    simp at hp
  have hinv := leafFold_inv schema nodes results ⟨0, []⟩ [] hbase
  rcases bucketGet_cases (results.foldl (leafStep schema nodes) ⟨0, []⟩).buckets
      (results.foldl (leafStep schema nodes) ⟨0, []⟩).largest with h | h
  · rw [h]
    exact ⟨List.nil_sublist _, List.nodup_nil⟩
  · have := hinv _ h
    simpa using this

/-!  Invariant for the visited-set accumulation: identifiers present in the
accumulated record list are pairwise distinct and all covered by the visited
set. -/

lemma appendNew_inv (schema : ResolverSchema) :
    ∀ (results : List Record) (start : List Record × List String),
      (start.1.filterMap (fun r => getFieldAsString r schema.id)).Nodup →
      (∀ i ∈ start.1.filterMap (fun r => getFieldAsString r schema.id), i ∈ start.2) →
      ((appendNew schema start results).1.filterMap
          (fun r => getFieldAsString r schema.id)).Nodup ∧
        ∀ i ∈ (appendNew schema start results).1.filterMap
            (fun r => getFieldAsString r schema.id),
          i ∈ (appendNew schema start results).2 := by
  intro results
  induction results with
  | nil =>
    intro start h1 h2
    exact ⟨h1, h2⟩
  | cons r rs ih =>
    intro start h1 h2
    simp only [appendNew, List.foldl_cons] at *
    cases hid : getFieldAsString r schema.id with
    | none =>
      have hfm : (start.1 ++ [r]).filterMap (fun r => getFieldAsString r schema.id) =
          start.1.filterMap (fun r => getFieldAsString r schema.id) := by
        simp [List.filterMap_append, hid]
      exact ih ((start.1 ++ [r], start.2)) (by simpa [hfm] using h1) (by simpa [hfm] using h2)
    | some i =>
      by_cases hv : i ∈ start.2
      · simp only [hid, if_pos hv]
        exact ih start h1 h2
      · simp only [hid, if_neg hv]
        have hfm : (start.1 ++ [r]).filterMap (fun r => getFieldAsString r schema.id) =
            start.1.filterMap (fun r => getFieldAsString r schema.id) ++ [i] := by
          simp [List.filterMap_append, hid]
        refine ih (start.1 ++ [r], start.2 ++ [i]) ?_ ?_
        · rw [hfm, List.nodup_append]
          refine ⟨h1, List.nodup_singleton i, ?_⟩
          intro a ha hai
          rw [List.mem_singleton] at hai
          subst hai
          exact hv (h2 a ha)
        · intro j hj
          rw [hfm] at hj
          rcases List.mem_append.mp hj with hj | hj
          · exact List.mem_append.mpr (Or.inl (h2 j hj))
          · exact List.mem_append.mpr (Or.inr hj)

lemma dedupById_nodup (schema : ResolverSchema) (records : List Record) :
    ((dedupById schema records).filterMap
        (fun r => getFieldAsString r schema.id)).Nodup := by
  have := appendNew_inv schema records ([], []) (by simp) (by simp)
  exact this.1

/-!  The frontier deduplication never turns a non-empty origin set into an
empty frontier. -/

lemma dedup_foldl_len (xs : List String) : ∀ acc : List String,
    acc.length ≤
      (xs.foldl (fun acc s => if s ∈ acc then acc else acc ++ [s]) acc).length := by
  induction xs with
  | nil => intro acc; simp
  | cons x xs ih =>
    intro acc
    simp only [List.foldl_cons]
    refine le_trans ?_ (ih _)
    by_cases h : x ∈ acc <;> simp [h]

lemma dedupStr_ne_nil {l : List String} (h : l ≠ []) : dedupStr l ≠ [] := by
  cases l with
  | nil => exact absurd rfl h
  | cons x xs =>
    have hlen : 1 ≤ (dedupStr (x :: xs)).length := by
      have := dedup_foldl_len xs [x]
      simpa [dedupStr] using this
    intro hnil
    rw [hnil] at hlen
    simp at hlen

lemma dedupStr_isEmpty_false {l : List String} (h : l ≠ []) :
    (dedupStr l).isEmpty = false := by
  cases hd : dedupStr l with
  | nil => exact absurd hd (dedupStr_ne_nil h)
  | cons x xs => rfl

/-!  Additional fixtures used by witnesses and counterexamples. -/

/-- A query capability that fails on every invocation (the test suite's mock
that throws `should not have called this`). -/
def qeThrow : QueryExec :=
  { searchAncestry := fun _ _ => Except.error "should not have called this"
    searchDescendants := fun _ _ _ => Except.error "should not have called this"
    searchStats := fun _ => Except.error "should not have called this" }

/-- A query capability returning an empty record batch on every invocation. -/
def qeEmpty : QueryExec :=
  { searchAncestry := fun _ _ => Except.ok []
    searchDescendants := fun _ _ _ => Except.ok []
    searchStats := fun _ => Except.ok [] }

/-- C2: with `ancestors = 0` the ancestor traversal returns the empty result
and issues zero ancestor queries; this holds for every query capability,
including one that fails on every invocation, so no exception can arise from
that branch. -/
theorem ancestors_zero_never_queried (qe : QueryExec) (opts : TreeOptions)
    (h : opts.ancestors = 0) :
    fetchAncestors qe opts = Except.ok ([], 0) := by
  unfold fetchAncestors
  rw [h]
  rfl

theorem ancestors_zero_never_queried_witness :
    fetchAncestors qeThrow
        { descendantLevels := 0, descendants := 0, ancestors := 0,
          schema := schemaPlain, nodes := ["a"] } =
      Except.ok ([], 0) :=
  ancestors_zero_never_queried qeThrow
    { descendantLevels := 0, descendants := 0, ancestors := 0,
      schema := schemaPlain, nodes := ["a"] } rfl

/-- C3: with `descendantLevels = 0` or `descendants = 0` the descendant
traversal returns the empty result and issues zero descendant queries, for
every query capability. -/
theorem descendants_zero_never_queried (qe : QueryExec) (opts : TreeOptions)
    (h : opts.descendantLevels = 0 ∨ opts.descendants = 0) :
    fetchDescendants qe opts = Except.ok ([], 0) := by
  unfold fetchDescendants
  rcases h with h | h
  · rw [h]
    rfl
  · rw [h]
    cases hl : opts.descendantLevels with
    | zero => rfl
    | succ l => simp [descGo]

theorem descendants_zero_never_queried_witness :
    fetchDescendants qeThrow
        { descendantLevels := 0, descendants := 0, ancestors := 0,
          schema := schemaPlain, nodes := ["a"] } =
      Except.ok ([], 0) :=
  descendants_zero_never_queried qeThrow
    { descendantLevels := 0, descendants := 0, ancestors := 0,
      schema := schemaPlain, nodes := ["a"] } (Or.inl rfl)

/-- C8: when the first query of a direction returns an empty record batch,
that direction's loop terminates after exactly that one call and returns the
empty list.  The two directions are independent: an enabled ancestor
traversal whose first lifecycle query is empty stops at one call, and an
enabled descendant traversal whose first descendants query is empty stops at
one call, regardless of the other direction's options. -/
theorem empty_first_response_one_call (qe : QueryExec) (opts : TreeOptions)
    (h1 : opts.nodes ≠ []) :
    (opts.ancestors ≠ 0 →
      qe.searchAncestry 0 (dedupStr opts.nodes) = Except.ok [] →
      fetchAncestors qe opts = Except.ok ([], 1)) ∧
    (opts.descendantLevels ≠ 0 → opts.descendants ≠ 0 →
      qe.searchDescendants 0 (dedupStr opts.nodes) opts.descendants =
        Except.ok [] →
      fetchDescendants qe opts = Except.ok ([], 1)) := by
  have hfr := dedupStr_isEmpty_false h1
  constructor
  · intro h2 ha
    unfold fetchAncestors
    cases hA : opts.ancestors with
    | zero => exact absurd hA h2
    | succ n =>
      rw [ancGo]
      rw [ha]
      simp [hfr]
  · intro h3 h4 hd
    unfold fetchDescendants
    cases hL : opts.descendantLevels with
    | zero => exact absurd hL h3
    | succ l =>
      rw [descGo]
      rw [hd]
      simp [hfr, h4]

theorem empty_first_response_one_call_witness :
    fetchAncestors qeEmpty
        { descendantLevels := 0, descendants := 0, ancestors := 5,
          schema := ⟨"", "", none⟩, nodes := ["a"] } =
      Except.ok ([], 1) ∧
    fetchDescendants qeEmpty
        { descendantLevels := 1, descendants := 5, ancestors := 0,
          schema := ⟨"", "", none⟩, nodes := ["a"] } =
      Except.ok ([], 1) :=
  ⟨(empty_first_response_one_call qeEmpty
      { descendantLevels := 0, descendants := 0, ancestors := 5,
        schema := ⟨"", "", none⟩, nodes := ["a"] } (by decide)).1
    (by decide) rfl,
   (empty_first_response_one_call qeEmpty
      { descendantLevels := 1, descendants := 5, ancestors := 0,
        schema := ⟨"", "", none⟩, nodes := ["a"] } (by decide)).2
    (by decide) (by decide) rfl⟩

/-- C4: on the two-level descendant tree (root `0` with children `1,3`,
node `1` with child `2`, node `3` with children `4,5`) queried with
`descendantLevels = 2` and `descendants = 5`, the traversal returns exactly
the five nodes in level-by-level order `[1,3,2,4,5]` (each level in
query-response order), each annotated with stats total `0` and empty
`byCategory`, using exactly two descendant queries. -/
theorem descendant_two_level_tree :
    tree qeDesc optsDesc = Except.ok (addEmptyStats (level1 ++ level2)) ∧
    fetchDescendants qeDesc optsDesc = Except.ok (level1 ++ level2, 2) ∧
    (level1 ++ level2).filterMap (fun r => getFieldAsString r "id") =
      ["1", "3", "2", "4", "5"] ∧
    (addEmptyStats (level1 ++ level2)).map (fun n => n.stats) =
      [⟨0, []⟩, ⟨0, []⟩, ⟨0, []⟩, ⟨0, []⟩, ⟨0, []⟩] :=
  ⟨rfl, rfl, rfl, rfl⟩

/-- C5: with `ancestors = 3`, an origin `3` whose first lifecycle response
carries the ancestry array `[2,1]`, and a second response `[node1, node2]`,
the traversal returns exactly `[node3, node1, node2]` in that order using
only two queries for the three requested levels: the ancestry array is
consumed to skip per-level lookups. -/
theorem ancestry_array_skips_levels :
    tree qeAnc optsAnc = Except.ok (addEmptyStats [node3, node1, node2]) ∧
    fetchAncestors qeAnc optsAnc = Except.ok ([node3, node1, node2], 2) ∧
    2 < optsAnc.ancestors :=
  ⟨rfl, rfl, by decide⟩

/-- The unbalanced-tree batch of the test suite: records `1..5` under root
`0` and record `b` under root `a`, all carrying ancestry arrays of captured
depth at most 2. -/
def unbalancedBatch : List Record :=
  [[("id", .str "1"), ("parent", .str "0"), ("ancestry", .strList ["0"])],
   [("id", .str "2"), ("parent", .str "1"), ("ancestry", .strList ["1", "0"])],
   [("id", .str "3"), ("parent", .str "0"), ("ancestry", .strList ["0"])],
   [("id", .str "4"), ("parent", .str "3"), ("ancestry", .strList ["3", "0"])],
   [("id", .str "5"), ("parent", .str "3"), ("ancestry", .strList ["3", "0"])],
   [("id", .str "b"), ("parent", .str "a"), ("ancestry", .strList ["a"])]]

/-- C6: on the unbalanced-tree batch with queried nodes `[0, a]` and an
ancestry-aware schema, the leaf detector returns exactly `[2, 4, 5]`,
excluding `b` even though `b` may have unseen children beyond the ancestry
arrays' captured depth: the approximate boundary behavior is preserved
exactly. -/
theorem unbalanced_tree_leaves :
    getLeafNodes unbalancedBatch ["0", "a"] schemaAnc = ["2", "4", "5"] ∧
    "b" ∉ getLeafNodes unbalancedBatch ["0", "a"] schemaAnc := by
  constructor
  · rfl
  · decide

/-- The first leaf-detection test batch: children `1`, `2`, `3` all parented
at `0`, no ancestry field. -/
def batchA : List Record :=
  [[("id", .str "1"), ("parent", .str "0")],
   [("id", .str "2"), ("parent", .str "0")],
   [("id", .str "3"), ("parent", .str "0")]]

/-- C1 counterexample: the leaf detector's output is not a subset of the
input `nodes` argument.  On the first test batch with `nodes = ["0"]` it
returns `["1","2","3"]`, and `"1"` is not an element of `["0"]`. -/
theorem leaf_output_not_subset_of_nodes_cex :
    getLeafNodes batchA ["0"] schemaPlain = ["1", "2", "3"] ∧
    "1" ∈ getLeafNodes batchA ["0"] schemaPlain ∧
    "1" ∉ ["0"] ∧
    ¬ (∀ x ∈ getLeafNodes batchA ["0"] schemaPlain, x ∈ ["0"]) := by
  refine ⟨rfl, by decide, by decide, ?_⟩
  intro hall
  exact absurd (hall "1" (by decide)) (by decide)

/-- C1 amended: every identifier returned by the leaf detector is the
id-field value of some record of `results` (not drawn from the `nodes`
argument), the output contains no duplicates, and the identifiers appear in
the records' order of first appearance in `results` (the output is a
subsequence of the sequence of id-field values of `results`). -/
theorem leaf_output_from_results_nodup (results : List Record)
    (nodes : List String) (schema : ResolverSchema) :
    List.Sublist (getLeafNodes results nodes schema)
        (results.filterMap (fun r => getFieldAsString r schema.id)) ∧
      (∀ x ∈ getLeafNodes results nodes schema,
        x ∈ results.filterMap (fun r => getFieldAsString r schema.id)) ∧
      (getLeafNodes results nodes schema).Nodup :=
  ⟨(getLeafNodes_inv results nodes schema).1,
   fun _ hx => (getLeafNodes_inv results nodes schema).1.subset hx,
   (getLeafNodes_inv results nodes schema).2⟩

/-- C10: the leaf detector's output is a subsequence of the id-field values
of the records of `results`: every returned identifier is the id of some
record in `results`, and the returned identifiers appear in the same
relative order as their records appear in `results`. -/
theorem leaf_output_sublist_of_result_ids (results : List Record)
    (nodes : List String) (schema : ResolverSchema) :
    List.Sublist (getLeafNodes results nodes schema)
      (results.filterMap (fun r => getFieldAsString r schema.id)) :=
  (getLeafNodes_inv results nodes schema).1

/-- A record with an id and a usable ancestry array but no parent field
value. -/
def recNoParent : Record := [("id", .str "x"), ("ancestry", .strList ["0"])]

/-- C7 counterexample: a record whose parent field value is absent is not
always ignored.  When it carries a usable ancestry array ending in a queried
identifier, it still contributes and its own identifier appears in the leaf
output. -/
theorem missing_parent_still_contributes_cex :
    getFieldAsString recNoParent schemaAnc.parent = none ∧
    getLeafNodes [recNoParent] ["0"] schemaAnc = ["x"] ∧
    "x" ∈ getLeafNodes [recNoParent] ["0"] schemaAnc := by
  refine ⟨rfl, rfl, by decide⟩

/-- C7 amended: a record whose id field value is absent (or stored under a
field name not matching the schema) is ignored entirely; a record whose
parent field value is absent and which also lacks a usable ancestry array
contributes no information.  In either case removing the record from the
batch leaves the leaf detector's output unchanged (so such a record's
identifier never enters the output on its own account), and no error is ever
raised (the detector is a total function). -/
theorem uninformative_record_ignored (schema : ResolverSchema)
    (nodes : List String) (l1 l2 : List Record) (r : Record)
    (h : getFieldAsString r schema.id = none ∨
      (getFieldAsString r schema.parent = none ∧ getAncestryAsArray r schema = [])) :
    getLeafNodes (l1 ++ r :: l2) nodes schema = getLeafNodes (l1 ++ l2) nodes schema := by
  have hstep : ∀ acc : LeafAcc, leafStep schema nodes acc r = acc := by
    intro acc
    rcases h with h | ⟨hp, ha⟩
    · simp [leafStep, h]
    · cases hid : getFieldAsString r schema.id with
      | none => simp [leafStep, hid]
      | some i => simp [leafStep, hid, ha, hp]
  unfold getLeafNodes
  rw [List.foldl_append, List.foldl_cons, hstep, ← List.foldl_append]

theorem uninformative_record_ignored_witness :
    getLeafNodes
        ([[("id", FieldValue.str "1"), ("parent", FieldValue.str "0")],
          [("id", FieldValue.str "2"), ("parent", FieldValue.str "0")]] ++
          [("idNotReal", FieldValue.str "3"), ("parentNotReal", FieldValue.str "0")] ::
            []) ["0"] schemaPlain =
      getLeafNodes
        ([[("id", FieldValue.str "1"), ("parent", FieldValue.str "0")],
          [("id", FieldValue.str "2"), ("parent", FieldValue.str "0")]] ++ [])
        ["0"] schemaPlain :=
  uninformative_record_ignored schemaPlain ["0"]
    [[("id", FieldValue.str "1"), ("parent", FieldValue.str "0")],
     [("id", FieldValue.str "2"), ("parent", FieldValue.str "0")]]
    []
    [("idNotReal", FieldValue.str "3"), ("parentNotReal", FieldValue.str "0")]
    (Or.inl rfl)

/-- C9: every successful `tree` invocation returns a list free of duplicate
identifiers: the ancestor-direction results come first, the two directions
are concatenated and deduplicated by identifier across the whole operation,
so a node reachable in both directions or along several paths appears
exactly once. -/
theorem tree_result_ids_nodup (qe : QueryExec) (opts : TreeOptions)
    (nodes : List ResolverNode) (h : tree qe opts = Except.ok nodes) :
    (nodes.filterMap (fun n => getFieldAsString n.data opts.schema.id)).Nodup ∧
    ∃ ancd descd : List Record × Nat,
      fetchAncestors qe opts = Except.ok ancd ∧
      fetchDescendants qe opts = Except.ok descd ∧
      nodes.map (fun n => n.data) = dedupById opts.schema (ancd.1 ++ descd.1) := by
  unfold tree at h
  cases hA : fetchAncestors qe opts with
  | error e => rw [hA] at h; exact absurd h (by simp)
  | ok ancd =>
    rw [hA] at h
    dsimp only at h
    cases hD : fetchDescendants qe opts with
    | error e => rw [hD] at h; exact absurd h (by simp)
    | ok descd =>
      rw [hD] at h
      dsimp only at h
      cases hS : qe.searchStats ((dedupById opts.schema (ancd.1 ++ descd.1)).filterMap
          (fun r => getFieldAsString r opts.schema.id)) with
      | error e => rw [hS] at h; exact absurd h (by simp)
      | ok st =>
        rw [hS] at h
        dsimp only at h
        simp only [Except.ok.injEq] at h
        subst h
        refine ⟨?_, ancd, descd, rfl, rfl, by rw [List.map_map]; exact List.map_id _⟩
        rw [List.filterMap_map]
        exact dedupById_nodup opts.schema (ancd.1 ++ descd.1)

theorem tree_result_ids_nodup_witness :
    ((addEmptyStats (level1 ++ level2)).filterMap
        (fun n => getFieldAsString n.data optsDesc.schema.id)).Nodup ∧
    ∃ ancd descd : List Record × Nat,
      fetchAncestors qeDesc optsDesc = Except.ok ancd ∧
      fetchDescendants qeDesc optsDesc = Except.ok descd ∧
      (addEmptyStats (level1 ++ level2)).map (fun n => n.data) =
        dedupById optsDesc.schema (ancd.1 ++ descd.1) :=
  tree_result_ids_nodup qeDesc optsDesc (addEmptyStats (level1 ++ level2)) rfl
